import Mathlib

/-!
Verification of the route-discovery and execution engine of the
AIQuickFix extension (src/extension.ts).

The TypeScript source is shallowly embedded: pure helpers become Lean
functions with the source's names; the stateful route cache / persisted
store become an explicit `FixState` passed through the functions; the
OS process boundary (`spawn`) becomes an explicit event script, and the
probe / run executions inside the runner become oracles
`CommandSpec → Bool` / `CommandSpec → ProcessResult` (the code observes a
process only through these interfaces).

JavaScript string methods used by the source (`includes`, `startsWith`,
`endsWith`, `toLowerCase`, `trim`, `slice`, `replace`, first-line split)
are modelled by character-list functions below, so that every definition
is executable by the kernel.
-/

/-! ## String helpers (models of the JS string methods the source uses) -/

/-- Model of JS `haystack.includes(needle)` for the nonempty needles the
source uses: does `needle` occur as a contiguous sublist? -/
def charsInclude (needle : List Char) : List Char → Bool
  | [] => needle.isEmpty
  | c :: rest => needle.isPrefixOf (c :: rest) || charsInclude needle rest

/-- JS `s.includes(sub)`. -/
def stringIncludes (s sub : String) : Bool :=
  charsInclude sub.data s.data

/-- JS `s.startsWith(p)`. -/
def strStartsWith (s p : String) : Bool :=
  p.data.isPrefixOf s.data

/-- JS `s.endsWith(p)`. -/
def strEndsWith (s p : String) : Bool :=
  p.data.isSuffixOf s.data

/-- JS `s.toLowerCase()` (ASCII, which is all the source compares). -/
def strToLower (s : String) : String :=
  ⟨s.data.map Char.toLower⟩

/-- JS whitespace test for `trim` (the source only meets ASCII whitespace). -/
def isSpaceChar (c : Char) : Bool :=
  c == ' ' || c == '\t' || c == '\n' || c == '\r'

/-- JS `s.trim()`. -/
def strTrim (s : String) : String :=
  ⟨((s.data.dropWhile isSpaceChar).reverse.dropWhile isSpaceChar).reverse⟩

/-- JS `output.split(/\r?\n/, 1)[0]`: the text before the first newline,
with a carriage return immediately before that newline dropped. -/
def firstLineOf (s : String) : String :=
  let l := s.data.takeWhile (fun c => !(c == '\n'))
  ⟨if l.getLast? == some '\r' then l.dropLast else l⟩

/-- The apostrophe character, written by code point to keep string
literals plain. -/
def squoteChar : Char := Char.ofNat 39

/-- One character of `quoteForPosixShell`: JS
`value.replace(/'/g, "'\\''")` maps an apostrophe to the four characters
apostrophe-backslash-apostrophe-apostrophe and keeps everything else. -/
def posixEscapeChar (c : Char) : List Char :=
  if c == squoteChar then [squoteChar, '\\', squoteChar, squoteChar] else [c]

/-- `quoteForPosixShell` (extension.ts:843-845): wrap in single quotes,
escaping embedded single quotes. -/
def quoteForPosixShell (value : String) : String :=
  ⟨squoteChar :: ((value.data.flatMap posixEscapeChar) ++ [squoteChar])⟩

/-! ## Data model (extension.ts:21-43, 56-58) -/

/-- `CommandSpec` (extension.ts:21-24). -/
structure CommandSpec where
  command : String
  args : List String
deriving DecidableEq, Inhabited

/-- `CliRoute` (extension.ts:26-31); `buildRun` is the run builder taking
the prompt. -/
structure CliRoute where
  id : String
  display : String
  probe : CommandSpec
  buildRun : String → CommandSpec
deriving Inhabited

/-- `CliFixerId` (extension.ts:6). -/
inductive CliFixerId where
  | codexCli
  | claudeCli
deriving DecidableEq

/-- `CliSettings` (extension.ts:33-35). -/
structure CliSettings where
  enableWslRoutes : Bool
deriving DecidableEq

/-- `ProcessResult` (extension.ts:37-43): exit code is `null`-able, the
OS error code optional. -/
structure ProcessResult where
  exitCode : Option Int
  stdout : String
  stderr : String
  timedOut : Bool
  errorCode : Option String
deriving DecidableEq, Inhabited

/-- `MAX_PROCESS_OUTPUT_CHARS` (extension.ts:58). -/
def MAX_PROCESS_OUTPUT_CHARS : Nat := 12000

/-! ## Route Catalog (extension.ts:571-742) -/

/-- One codex argument variant (the element shape of the `variants`
array in `getCodexCliRoutes`, extension.ts:576-621); `runShell` already
has the binary baked in, as the closures in the source do. -/
structure CodexVariant where
  idSuffix : String
  displaySuffix : String
  runArgs : String → List String
  runShell : String → String

/-- The `variants` array of `getCodexCliRoutes` for one binary
(extension.ts:576-621), in source order: most write-permissive first. -/
def codexVariants (binary : String) : List CodexVariant :=
  [ { idSuffix := "workspace-write-skipgit",
      displaySuffix := " (--sandbox workspace-write --skip-git-repo-check)",
      runArgs := fun prompt =>
        ["exec", "--sandbox", "workspace-write", "--skip-git-repo-check", prompt],
      runShell := fun prompt =>
        binary ++ " exec --sandbox workspace-write --skip-git-repo-check " ++
          quoteForPosixShell prompt },
    { idSuffix := "auto-skipgit",
      displaySuffix := " (--full-auto --skip-git-repo-check)",
      runArgs := fun prompt => ["exec", "--full-auto", "--skip-git-repo-check", prompt],
      runShell := fun prompt =>
        binary ++ " exec --full-auto --skip-git-repo-check " ++ quoteForPosixShell prompt },
    { idSuffix := "skipgit",
      displaySuffix := " (--skip-git-repo-check)",
      runArgs := fun prompt => ["exec", "--skip-git-repo-check", prompt],
      runShell := fun prompt =>
        binary ++ " exec --skip-git-repo-check " ++ quoteForPosixShell prompt },
    { idSuffix := "plain",
      displaySuffix := "",
      runArgs := fun prompt => ["exec", prompt],
      runShell := fun prompt => binary ++ " exec " ++ quoteForPosixShell prompt } ]

/-- The four transport routes pushed per (binary, variant) in
`getCodexCliRoutes` (extension.ts:623-671), in push order: native, bash,
wsl bash, wsl --exec. -/
def codexRoutesFor (binary : String) (variant : CodexVariant) : List CliRoute :=
  [ { id := "native:" ++ binary ++ ":exec:" ++ variant.idSuffix,
      display := binary ++ " exec" ++ variant.displaySuffix,
      probe := { command := binary, args := ["exec", "--help"] },
      buildRun := fun prompt => { command := binary, args := variant.runArgs prompt } },
    { id := "bash:" ++ binary ++ ":exec:" ++ variant.idSuffix,
      display := "bash -> " ++ binary ++ " exec" ++ variant.displaySuffix,
      probe := { command := "bash", args := ["-lc", binary ++ " exec --help"] },
      buildRun := fun prompt =>
        { command := "bash", args := ["-lc", variant.runShell prompt] } },
    { id := "wsl:" ++ binary ++ ":exec:" ++ variant.idSuffix,
      display := "wsl bash -> " ++ binary ++ " exec" ++ variant.displaySuffix,
      probe := { command := "wsl", args := ["bash", "-lc", binary ++ " exec --help"] },
      buildRun := fun prompt =>
        { command := "wsl", args := ["bash", "-lc", variant.runShell prompt] } },
    { id := "wsl-exec:" ++ binary ++ ":exec:" ++ variant.idSuffix,
      display := "wsl --exec " ++ binary ++ " exec" ++ variant.displaySuffix,
      probe := { command := "wsl", args := ["--exec", binary, "exec", "--help"] },
      buildRun := fun prompt =>
        { command := "wsl", args := ["--exec", binary] ++ variant.runArgs prompt } } ]

/-- `getCodexCliRoutes` (extension.ts:571-675): binaries `codex` and
`codex-cli`, variants in order, four transports per variant. -/
def getCodexCliRoutes : List CliRoute :=
  (["codex", "codex-cli"] : List String).flatMap fun binary =>
    (codexVariants binary).flatMap fun variant => codexRoutesFor binary variant

/-- `getClaudeCliRoutes` (extension.ts:677-742): binaries `claude` and
`claude-cli`; per binary: native `-p`, native `--print`, bash `-p`,
wsl bash `-p`, wsl --exec `-p`. -/
def getClaudeCliRoutes : List CliRoute :=
  (["claude", "claude-cli"] : List String).flatMap fun binary =>
    [ { id := "native:" ++ binary ++ ":p",
        display := binary ++ " -p",
        probe := { command := binary, args := ["--help"] },
        buildRun := fun prompt => { command := binary, args := ["-p", prompt] } },
      { id := "native:" ++ binary ++ ":print",
        display := binary ++ " --print",
        probe := { command := binary, args := ["--help"] },
        buildRun := fun prompt => { command := binary, args := ["--print", prompt] } },
      { id := "bash:" ++ binary ++ ":p",
        display := "bash -> " ++ binary ++ " -p",
        probe := { command := "bash", args := ["-lc", binary ++ " --help"] },
        buildRun := fun prompt =>
          { command := "bash",
            args := ["-lc", binary ++ " -p " ++ quoteForPosixShell prompt] } },
      { id := "wsl:" ++ binary ++ ":p",
        display := "wsl bash -> " ++ binary ++ " -p",
        probe := { command := "wsl", args := ["bash", "-lc", binary ++ " --help"] },
        buildRun := fun prompt =>
          { command := "wsl",
            args := ["bash", "-lc", binary ++ " -p " ++ quoteForPosixShell prompt] } },
      { id := "wsl-exec:" ++ binary ++ ":p",
        display := "wsl --exec " ++ binary ++ " -p",
        probe := { command := "wsl", args := ["--exec", binary, "--help"] },
        buildRun := fun prompt =>
          { command := "wsl", args := ["--exec", binary, "-p", prompt] } } ]

/-- `getCliRouteCandidates` (extension.ts:555-565): pick the kind's
catalog and, when WSL routes are disabled, drop every route whose id
starts with `wsl`. -/
def getCliRouteCandidates (fixerId : CliFixerId) (settings : CliSettings) : List CliRoute :=
  let routes := match fixerId with
    | .codexCli => getCodexCliRoutes
    | .claudeCli => getClaudeCliRoutes
  if !settings.enableWslRoutes then
    routes.filter (fun route => !(strStartsWith route.id "wsl"))
  else
    routes

/-- `isRouteAvailable` (extension.ts:567-569). -/
def isRouteAvailable (fixerId : CliFixerId) (routeId : String) (settings : CliSettings) : Bool :=
  (getCliRouteCandidates fixerId settings).any (fun route => route.id == routeId)

/-- `orderRoutesWithPreferred` (extension.ts:773-787). -/
def orderRoutesWithPreferred (routes : List CliRoute) (preferredId : Option String) :
    List CliRoute :=
  match preferredId with
  | none => routes
  | some pid =>
    match routes.find? (fun route => route.id == pid) with
    | none => routes
    | some preferred => preferred :: routes.filter (fun route => !(route.id == pid))

/-- `getDiscoveryPreferredRouteId` (extension.ts:430-447): for the codex
kind a persisted id is honored only when it contains
`:workspace-write`; for the claude kind every id is honored. -/
def getDiscoveryPreferredRouteId (fixerId : CliFixerId) (routeId : Option String) :
    Option String :=
  match routeId with
  | none => none
  | some rid =>
    if fixerId != .codexCli then some rid
    else if stringIncludes rid ":workspace-write" then some rid
    else none

/-! ## Result classification (extension.ts:928-979) -/

/-- JS truthiness of an optional string (`!result.errorCode` is false for
`undefined` and for the empty string). -/
def optStrTruthy : Option String → Bool
  | none => false
  | some s => !(s == "")

/-- `isProcessSuccess` (extension.ts:928-930). -/
def isProcessSuccess (result : ProcessResult) : Bool :=
  !result.timedOut && !(optStrTruthy result.errorCode) && result.exitCode == some 0

/-- `isInvocationFailure` (extension.ts:932-952). -/
def isInvocationFailure (result : ProcessResult) : Bool :=
  if result.errorCode == some "ENOENT" then true
  else if result.exitCode == some 127 then true
  else
    let output := strToLower (result.stdout ++ "\n" ++ result.stderr)
    stringIncludes output "not found" ||
    stringIncludes output "command not found" ||
    stringIncludes output "unknown option" ||
    stringIncludes output "unexpected argument" ||
    stringIncludes output "unrecognized option" ||
    stringIncludes output "invalid option" ||
    stringIncludes output "unknown command" ||
    stringIncludes output "no such file or directory" ||
    stringIncludes output "is not recognized as an internal or external command"

/-- `isReadOnlySandboxNotice` (extension.ts:972-979). -/
def isReadOnlySandboxNotice (result : ProcessResult) : Bool :=
  let output := strToLower (result.stdout ++ "\n" ++ result.stderr)
  stringIncludes output "read-only sandbox" ||
  stringIncludes output "couldn\x27t save due read-only sandbox permissions" ||
  stringIncludes output "could not save due read-only sandbox permissions"

/-- `formatProcessFailure` (extension.ts:954-970);
`Math.round(CLI_RUN_TIMEOUT_MS / 1000)` is 180. -/
def formatProcessFailure (result : ProcessResult) : String :=
  if result.timedOut then "timed out after 180s"
  else if optStrTruthy result.errorCode then
    "spawn failed (" ++ result.errorCode.getD "" ++ ")"
  else
    match result.exitCode with
    | some code =>
      let output := strTrim (if result.stderr == "" then result.stdout else result.stderr)
      if output == "" then "exited with code " ++ toString code
      else "exited with code " ++ toString code ++ ": " ++ firstLineOf output
    | none => "unknown process failure"

/-! ## Process Executor (extension.ts:847-926)

`runCommand` is the one place the source touches the OS. The OS side of
one spawned process is modelled explicitly: either `spawn` throws, or the
process starts and the orchestrator observes an ordered script of stream
chunks, at most one asynchronous error, the timeout timer firing, and a
close event. `runCommand` folds that script exactly as the source's
handlers do; `finalize`'s settles-once guard appears as the fold stopping
at the first finalizing event. -/

/-- `appendOutput` (extension.ts:920-926): `chunk.slice(0, remaining)`
becomes taking that many characters. -/
def appendOutput (current chunk : String) : String :=
  if current.length ≥ MAX_PROCESS_OUTPUT_CHARS then current
  else current ++ ⟨chunk.data.take (MAX_PROCESS_OUTPUT_CHARS - current.length)⟩

/-- One event the spawned child delivers to `runCommand`'s handlers, in
the order the event loop fires them. -/
inductive ProcEvent where
  | stdoutData (chunk : String)
  | stderrData (chunk : String)
  | errorEvent (code : Option String) (message : String)
  | closeEvent (exitCode : Option Int)
  | timerFired
deriving DecidableEq

/-- How the OS treats the single `spawn` call: a synchronous throw
(extension.ts:873-883) or a started child with its event script. -/
inductive SpawnOutcome where
  | throws (code : Option String) (message : String)
  | started (events : List ProcEvent)
deriving DecidableEq

/-- The handler fold of `runCommand` (extension.ts:885-916): `stdout`,
`stderr` and `timedOut` are the closure's mutable locals; the first
`error` or `close` event finalizes (later events are ignored by the
`settled` guard, so the fold returns). `none` means the script ended
with the promise still pending. -/
def processEvents : List ProcEvent → String → String → Bool → Option ProcessResult
  | [], _, _, _ => none
  | event :: rest, stdout, stderr, timedOut =>
    match event with
    | .stdoutData chunk => processEvents rest (appendOutput stdout chunk) stderr timedOut
    | .stderrData chunk => processEvents rest stdout (appendOutput stderr chunk) timedOut
    | .timerFired => processEvents rest stdout stderr true
    | .errorEvent code message =>
      some { exitCode := none, stdout := stdout,
             stderr := appendOutput stderr message, timedOut := false, errorCode := code }
    | .closeEvent exitCode =>
      some { exitCode := exitCode, stdout := stdout, stderr := stderr,
             timedOut := timedOut, errorCode := none }

/-- `runCommand` (extension.ts:847-918). On a spawn throw the result is
built directly with `stderr: err.message` (extension.ts:875-881); note
the message is not routed through `appendOutput` there. In the `close`
finalize the `errorCode` local is still `undefined`, because an `error`
event would itself have settled the promise first. -/
def runCommand (spawn : SpawnOutcome) : Option ProcessResult :=
  match spawn with
  | .throws code message =>
    some { exitCode := none, stdout := "", stderr := message,
           timedOut := false, errorCode := code }
  | .started events => processEvents events "" "" false

/-! ## Route Resolver and Fixer Runner state (extension.ts:71, 501-553, 789-825)

For one fixer kind the mutable state is the in-memory cache entry
(`cliRouteCache`: absent = unresolved, `null` = known-bad, a route =
known-good) and the persisted route id (`globalState` under
`CLI_ROUTE_STATE_KEY`: present or absent). -/

/-- One fixer kind's slice of `cliRouteCache` and the persisted store. -/
structure FixState where
  cache : Option (Option CliRoute)
  persisted : Option String

/-- `setCachedCliRoute` (extension.ts:801-825): the cache always receives
the value (so `null` is *stored*, not removed), while the persisted entry
is set to the id or deleted. -/
def setCachedCliRoute (_st : FixState) (route : Option CliRoute) : FixState :=
  { cache := some route, persisted := route.map CliRoute.id }

/-- The in-memory entry is the known-bad verdict (`cliRouteCache` maps
the kind to `null`). -/
def isKnownBadCache : Option (Option CliRoute) → Bool
  | some none => true
  | _ => false

/-- The in-memory entry is absent (unresolved). -/
def isUnresolvedCache : Option (Option CliRoute) → Bool
  | none => true
  | _ => false

/-- What one call to `getCliRoute` produces: the route, the state it
leaves behind, and whether it ran discovery (probed candidates) rather
than answering from the cached verdict. -/
structure ResolveResult where
  route : Option CliRoute
  state : FixState
  ranDiscovery : Bool

/-- `discoverCliRoute` (extension.ts:533-553): filter the persisted
preference, order the candidates, return the first that probes, caching
the winner or the absence of one. The probe oracle stands for
`probeRoute` at the probe working directory; the probe cache makes it a
function of the probe command within one discovery. -/
def discoverCliRoute (fixerId : CliFixerId) (settings : CliSettings) (st : FixState)
    (probe : CommandSpec → Bool) : ResolveResult :=
  let preferred := getDiscoveryPreferredRouteId fixerId st.persisted
  let routes := orderRoutesWithPreferred (getCliRouteCandidates fixerId settings) preferred
  match routes.find? (fun route => probe route.probe) with
  | some route => ⟨some route, setCachedCliRoute st (some route), true⟩
  | none => ⟨none, setCachedCliRoute st none, true⟩

/-- `getCliRoute` (extension.ts:501-531) without `forceRefresh` (no call
site passes it) and with the in-flight registry dropped (it only
deduplicates concurrent callers): a cached known-bad verdict returns
`null` immediately; a cached route is returned if still in the candidate
set, otherwise the verdict is cleared and discovery reruns. -/
def getCliRoute (fixerId : CliFixerId) (settings : CliSettings) (st : FixState)
    (probe : CommandSpec → Bool) : ResolveResult :=
  match st.cache with
  | some none => ⟨none, st, false⟩
  | some (some cached) =>
    if isRouteAvailable fixerId cached.id settings then ⟨some cached, st, false⟩
    else discoverCliRoute fixerId settings (setCachedCliRoute st none) probe
  | none => discoverCliRoute fixerId settings st probe

/-! ## Fixer Runner (extension.ts:272-352)

`runCliFix` resolves a base route, orders the candidates with it first,
and iterates: non-base candidates are probed and skipped on probe
failure; an executed candidate's result is classified as sandbox notice
(record, continue, suppress the invalidation), success (cache the route,
stop), invocation failure (record, continue) or hard failure (record,
break). After the loop, if only invocation failures were seen the
cached/persisted verdict is written with `null`. The trace of probes and
executions is recorded so the iteration discipline can be stated. -/

/-- One observable step of the runner's candidate loop. -/
inductive RunEvent where
  | probed (id : String) (ok : Bool)
  | ran (id : String)
deriving DecidableEq

/-- The failure line pushed for a sandbox notice (extension.ts:308-310). -/
def sandboxFailureMessage (route : CliRoute) : String :=
  route.display ++ ": reported read-only sandbox, so no file edits were saved."

/-- The failure line pushed for a failed run (extension.ts:329). -/
def runFailureMessage (route : CliRoute) (result : ProcessResult) : String :=
  route.display ++ ": " ++ formatProcessFailure result

/-- What one `runCliFix` invocation leaves behind: the successful route
(`none` when the function throws), the final per-kind state, the trace,
and the accumulated failure lines. -/
structure RunnerResult where
  outcome : Option CliRoute
  state : FixState
  events : List RunEvent
  failures : List String

/-- Prepend trace events to a loop continuation's result. -/
def withPreEvents (pre : List RunEvent) (res : RunnerResult) : RunnerResult :=
  { res with events := pre ++ res.events }

/-- The candidate loop of `runCliFix` (extension.ts:291-338), including
the post-loop invalidation (extension.ts:336-338). `failures` and
`sawOnly` are the source's `failures` and `sawInvocationFailureOnly`
locals; `exec` stands for `runCommand(route.buildRun(cliPrompt), cwd,
CLI_RUN_TIMEOUT_MS)` and `probe` for `probeRoute(route, cwd)`. -/
def runCliFixLoop (baseId prompt : String) (probe : CommandSpec → Bool)
    (exec : CommandSpec → ProcessResult) :
    List CliRoute → FixState → List String → Bool → RunnerResult
  | [], st, failures, sawOnly =>
    { outcome := none,
      state := if sawOnly then setCachedCliRoute st none else st,
      events := [], failures := failures }
  | route :: rest, st, failures, sawOnly =>
    let gate : Option (List RunEvent) :=
      if route.id == baseId then some []
      else if probe route.probe then some [RunEvent.probed route.id true]
      else none
    match gate with
    | none =>
      withPreEvents [RunEvent.probed route.id false]
        (runCliFixLoop baseId prompt probe exec rest st failures sawOnly)
    | some pre =>
      let result := exec (route.buildRun prompt)
      if isReadOnlySandboxNotice result then
        withPreEvents (pre ++ [RunEvent.ran route.id])
          (runCliFixLoop baseId prompt probe exec rest st
            (failures ++ [sandboxFailureMessage route]) false)
      else if isProcessSuccess result then
        { outcome := some route, state := setCachedCliRoute st (some route),
          events := pre ++ [RunEvent.ran route.id], failures := failures }
      else
        let failures2 := failures ++ [runFailureMessage route result]
        if isInvocationFailure result then
          withPreEvents (pre ++ [RunEvent.ran route.id])
            (runCliFixLoop baseId prompt probe exec rest st failures2 sawOnly)
        else
          { outcome := none, state := st,
            events := pre ++ [RunEvent.ran route.id], failures := failures2 }

/-- `runCliFix` (extension.ts:272-352): resolve the base route (throwing
when there is none), order the candidates with it first, run the loop
with `sawInvocationFailureOnly` initially true. -/
def runCliFix (fixerId : CliFixerId) (settings : CliSettings) (st : FixState)
    (prompt : String) (probe : CommandSpec → Bool) (exec : CommandSpec → ProcessResult) :
    RunnerResult :=
  let resolved := getCliRoute fixerId settings st probe
  match resolved.route with
  | none => { outcome := none, state := resolved.state, events := [], failures := [] }
  | some base =>
    let routes :=
      orderRoutesWithPreferred (getCliRouteCandidates fixerId settings) (some base.id)
    runCliFixLoop base.id prompt probe exec routes resolved.state [] true

/-! ## Host-command availability cache (extension.ts:75, 386-398) -/

/-- `isCommandAvailable` together with `commandAvailabilityCache`.
The cache is modelled as the list of keys present in the `Map` (the code
only ever stores `true`, and `has` alone decides the early return). The
result is (answer, cache afterwards, whether `getCommands` was queried).
-/
def isCommandAvailable (cache : List String) (hostCommands : List String)
    (command : String) : Bool × List String × Bool :=
  if cache.contains command then (true, cache, false)
  else
    let available := hostCommands.contains command
    if available then (available, command :: cache, true)
    else (available, cache, true)

/-- A route's transport goes through the OS bridge exactly when its probe
invokes the `wsl` executable (true of the `wsl`-shell and `wsl --exec`
routes of both catalogs and of no other). -/
def usesOsBridgeTransport (route : CliRoute) : Bool :=
  route.probe.command == "wsl"

/-- Exactly one of three booleans is true. -/
def exactlyOneOf (a b c : Bool) : Bool :=
  a.toNat + b.toNat + c.toNat == 1

/-- The spawn-throw result the C3 witness instantiates. -/
def throwSampleResult : ProcessResult :=
  { exitCode := none, stdout := "", stderr := "boom", timedOut := false,
    errorCode := some "ENOENT" }

/-- The started-child result the C8 witness instantiates. -/
def smallCloseResult : ProcessResult :=
  { exitCode := some 0, stdout := "hi", stderr := "", timedOut := false,
    errorCode := none }

/-- The probe trace a candidate contributes before it is executed: none
for the base route (extension.ts:294), one successful probe otherwise. -/
def gatePre (baseId : String) (route : CliRoute) : List RunEvent :=
  if route.id == baseId then [] else [RunEvent.probed route.id true]

/-- The concrete sandbox-notice run result the C5 witness uses. -/
def sandboxSampleResult : ProcessResult :=
  { exitCode := some 0, stdout := "read-only sandbox", stderr := "",
    timedOut := false, errorCode := none }

/-- The first route of the claude catalog, used by concrete scenarios. -/
def claudeBaseRoute : CliRoute := getClaudeCliRoutes.headD default

/-- A probe oracle that rejects every candidate. -/
def probeNever : CommandSpec → Bool := fun _ => false

/-- An execution oracle whose every run reports the sandbox notice. -/
def execSandbox : CommandSpec → ProcessResult := fun _ => sandboxSampleResult

/-- An unresolved starting state. -/
def stateUnresolved : FixState := { cache := none, persisted := none }

/-- An execution oracle whose every run times out with no output. -/
def execTimesOut : CommandSpec → ProcessResult :=
  fun _ =>
    { exitCode := none, stdout := "", stderr := "", timedOut := true, errorCode := none }

/-- The invocation-failure run result (`ENOENT`) the C1 scenario uses. -/
def enoentResult : ProcessResult :=
  { exitCode := none, stdout := "", stderr := "spawn claude ENOENT", timedOut := false,
    errorCode := some "ENOENT" }

/-- An execution oracle whose every run fails with `ENOENT`. -/
def execEnoent : CommandSpec → ProcessResult := fun _ => enoentResult

/-- A state whose cached and persisted verdict is the first claude
route. -/
def stateWithClaudeBase : FixState :=
  { cache := some (some claudeBaseRoute), persisted := some claudeBaseRoute.id }

/-- Is a trace event an execution? -/
def isRanEvent : RunEvent → Bool
  | .ran _ => true
  | _ => false

/-- A 12001-character spawn-throw message. -/
def longSpawnMessage : String := ⟨List.replicate 12001 'x'⟩

/-! ## Theorems -/

/-- C9: for both fixer kinds and both values of the OS-bridge-routes
flag, the route ids in the Catalog's output list are pairwise
distinct. -/
theorem catalogRouteIdsUnique :
    ((getCliRouteCandidates .codexCli ⟨true⟩).map CliRoute.id).Nodup ∧
    ((getCliRouteCandidates .codexCli ⟨false⟩).map CliRoute.id).Nodup ∧
    ((getCliRouteCandidates .claudeCli ⟨true⟩).map CliRoute.id).Nodup ∧
    ((getCliRouteCandidates .claudeCli ⟨false⟩).map CliRoute.id).Nodup := by
  refine ⟨?_, ?_, ?_, ?_⟩ <;> decide

/-- C7: for each fixer kind, the candidate list with the OS-bridge flag
disabled is exactly the flag-enabled list filtered to remove the routes
whose transport uses the OS bridge; the survivors keep their order and
all their fields. -/
theorem disableWslRemovesExactlyBridgeRoutes :
    ∀ fixerId : CliFixerId,
      getCliRouteCandidates fixerId { enableWslRoutes := false } =
        (getCliRouteCandidates fixerId { enableWslRoutes := true }).filter
          (fun route => !(usesOsBridgeTransport route)) := by
  intro fixerId
  cases fixerId
  · show getCodexCliRoutes.filter (fun route => !(strStartsWith route.id "wsl")) =
        getCodexCliRoutes.filter (fun route => !(usesOsBridgeTransport route))
    exact List.filter_congr (by decide)
  · show getClaudeCliRoutes.filter (fun route => !(strStartsWith route.id "wsl")) =
        getClaudeCliRoutes.filter (fun route => !(usesOsBridgeTransport route))
    exact List.filter_congr (by decide)

/-- C2 counterexample: the claude catalog has 10 routes, not the 16 the
claim's 8-per-binary reading would give; for the binary `claude` it has
5 routes, not 8; and only the 2 native routes carry the `--print`
spelling, so the shell and bridge transports are not paired with both
flag spellings. -/
theorem claudeCatalogNotEightPerBinary :
    getClaudeCliRoutes.length = 10 ∧
    (getClaudeCliRoutes.filter (fun route => stringIncludes route.id ":claude:")).length = 5 ∧
    (getClaudeCliRoutes.filter (fun route => strEndsWith route.id ":print")).length = 2 := by
  refine ⟨?_, ?_, ?_⟩ <;> decide

/-- C2 amended: per binary the claude catalog pairs only the native
transport with both print-mode spellings (`-p` and `--print`); the POSIX
shell, OS-bridge shell and OS-bridge exec transports each get a single
`-p` route — 5 routes per binary, 10 in all, in this order. -/
theorem claudeCatalogFiveRoutesPerBinary :
    getClaudeCliRoutes.map CliRoute.id =
      ["native:claude:p", "native:claude:print", "bash:claude:p",
       "wsl:claude:p", "wsl-exec:claude:p",
       "native:claude-cli:p", "native:claude-cli:print", "bash:claude-cli:p",
       "wsl:claude-cli:p", "wsl-exec:claude-cli:p"] := by
  decide

/-- C4: a persisted codex preference survives the discovery filter
exactly when it names the most-write-permissive variant
(`workspace-write-skipgit`, the `--sandbox workspace-write` one); a
filtered-out preference leaves the discovery order exactly the plain
candidate order, a surviving one is applied as the preferred id; every
claude preference survives unconditionally. -/
theorem codexPreferredOnlyMostPermissive :
    (∀ route ∈ getCodexCliRoutes,
       getDiscoveryPreferredRouteId .codexCli (some route.id) =
         (if strEndsWith route.id ":workspace-write-skipgit" then some route.id
          else none)) ∧
    (∀ rid : String, getDiscoveryPreferredRouteId .claudeCli (some rid) = some rid) ∧
    (∀ settings : CliSettings, ∀ route ∈ getCodexCliRoutes,
       strEndsWith route.id ":workspace-write-skipgit" = false →
       orderRoutesWithPreferred (getCliRouteCandidates .codexCli settings)
           (getDiscoveryPreferredRouteId .codexCli (some route.id)) =
         getCliRouteCandidates .codexCli settings) ∧
    (∀ settings : CliSettings, ∀ route ∈ getCodexCliRoutes,
       strEndsWith route.id ":workspace-write-skipgit" = true →
       orderRoutesWithPreferred (getCliRouteCandidates .codexCli settings)
           (getDiscoveryPreferredRouteId .codexCli (some route.id)) =
         orderRoutesWithPreferred (getCliRouteCandidates .codexCli settings)
           (some route.id)) := by
  have key : ∀ route ∈ getCodexCliRoutes,
      getDiscoveryPreferredRouteId .codexCli (some route.id) =
        (if strEndsWith route.id ":workspace-write-skipgit" then some route.id
         else none) := by decide
  refine ⟨key, fun rid => rfl, ?_, ?_⟩
  · intro settings route hmem hfalse
    rw [key route hmem, hfalse]
    rfl
  · intro settings route hmem htrue
    rw [key route hmem, htrue]
    rfl

/-- C3 counterexample: when the timeout timer fires and the child then
closes reporting an exit code (the kill raced the child's own exit), the
result carries both the exit code and the timed-out flag — two of the
three conditions hold, so "exactly one" fails. -/
theorem processResultTimedOutWithExitCode :
    (runCommand (.started [.timerFired, .closeEvent (some 0)])).map
        (fun r => (r.exitCode.isSome, r.timedOut, r.errorCode.isSome)) =
      some (true, true, false) ∧
    (runCommand (.started [.timerFired, .closeEvent (some 0)])).map
        (fun r => exactlyOneOf r.exitCode.isSome r.timedOut r.errorCode.isSome) =
      some false := by
  exact ⟨rfl, rfl⟩

/-- Invariant threaded through the handler fold: a finalized result that
carries an error code came from the `error` handler (or the spawn
throw), which always writes `exitCode: null` and `timedOut: false`. -/
theorem processEvents_errorCode_excludes (events : List ProcEvent) :
    ∀ stdout stderr timedOut result,
      processEvents events stdout stderr timedOut = some result →
      result.errorCode.isSome = true →
      result.exitCode = none ∧ result.timedOut = false := by
  induction events with
  | nil => intro _ _ _ _ h; simp [processEvents] at h
  | cons event rest ih =>
    intro stdout stderr timedOut result h herr
    cases event with
    | stdoutData chunk => exact ih _ _ _ _ h herr
    | stderrData chunk => exact ih _ _ _ _ h herr
    | timerFired => exact ih _ _ _ _ h herr
    | errorEvent code message =>
      simp only [processEvents, Option.some.injEq] at h
      subst h
      exact ⟨rfl, rfl⟩
    | closeEvent exitCode =>
      simp only [processEvents, Option.some.injEq] at h
      subst h
      simp at herr

/-- C3 amended: the "exactly one" trichotomy does not hold of every
result, but its error-code leg does: a result with an OS error code has
no exit code and is not timed out (the spawn-throw and `error`-event
paths both finalize with `exitCode: null, timedOut: false`). A
timed-out result, however, may still carry an exit code, and an `error`
event whose OS error has no `code` yields a result satisfying none of
the three conditions. -/
theorem processErrorCodeExcludesExitAndTimeout
    (spawn : SpawnOutcome) (result : ProcessResult)
    (h : runCommand spawn = some result)
    (herr : result.errorCode.isSome = true) :
    result.exitCode = none ∧ result.timedOut = false := by
  cases spawn with
  | throws code message =>
    simp only [runCommand, Option.some.injEq] at h
    subst h
    exact ⟨rfl, rfl⟩
  | started events =>
    exact processEvents_errorCode_excludes events _ _ _ _ h herr

/-- C3 witness: the amended theorem applied to a concrete spawn throw. -/
theorem processErrorCodeExcludesExitAndTimeoutWitness :
    throwSampleResult.exitCode = none ∧ throwSampleResult.timedOut = false :=
  processErrorCodeExcludesExitAndTimeout (.throws (some "ENOENT") "boom")
    throwSampleResult rfl rfl

/-- `appendOutput` keeps a stream within the bound once it is within the
bound. -/
theorem appendOutput_length_le (current chunk : String)
    (h : current.length ≤ MAX_PROCESS_OUTPUT_CHARS) :
    (appendOutput current chunk).length ≤ MAX_PROCESS_OUTPUT_CHARS := by
  unfold appendOutput
  split
  · exact h
  · next hge =>
    have hlt : current.length < MAX_PROCESS_OUTPUT_CHARS := by omega
    have hlen :
        (current ++ (⟨chunk.data.take (MAX_PROCESS_OUTPUT_CHARS - current.length)⟩ : String)).length
          = current.length + (chunk.data.take (MAX_PROCESS_OUTPUT_CHARS - current.length)).length := by
      show (current.data ++ chunk.data.take (MAX_PROCESS_OUTPUT_CHARS - current.length)).length
          = current.data.length + (chunk.data.take (MAX_PROCESS_OUTPUT_CHARS - current.length)).length
      exact List.length_append _ _
    have htake : (chunk.data.take (MAX_PROCESS_OUTPUT_CHARS - current.length)).length
        ≤ MAX_PROCESS_OUTPUT_CHARS - current.length :=
      List.length_take_le _ _
    omega

/-- The stream bound is an invariant of the handler fold. -/
theorem processEvents_bounded (events : List ProcEvent) :
    ∀ stdout stderr timedOut result,
      stdout.length ≤ MAX_PROCESS_OUTPUT_CHARS →
      stderr.length ≤ MAX_PROCESS_OUTPUT_CHARS →
      processEvents events stdout stderr timedOut = some result →
      result.stdout.length ≤ MAX_PROCESS_OUTPUT_CHARS ∧
      result.stderr.length ≤ MAX_PROCESS_OUTPUT_CHARS := by
  induction events with
  | nil => intro _ _ _ _ _ _ h; simp [processEvents] at h
  | cons event rest ih =>
    intro stdout stderr timedOut result hout herr h
    cases event with
    | stdoutData chunk =>
      exact ih _ _ _ _ (appendOutput_length_le _ _ hout) herr h
    | stderrData chunk =>
      exact ih _ _ _ _ hout (appendOutput_length_le _ _ herr) h
    | timerFired => exact ih _ _ _ _ hout herr h
    | errorEvent code message =>
      simp only [processEvents, Option.some.injEq] at h
      subst h
      exact ⟨hout, appendOutput_length_le _ _ herr⟩
    | closeEvent exitCode =>
      simp only [processEvents, Option.some.injEq] at h
      subst h
      exact ⟨hout, herr⟩

/-- C8 amended: on every path of a started child — stream data in any
amount, asynchronous error, timeout, close — captured stdout and stderr
stay within `MAX_PROCESS_OUTPUT_CHARS`; the one exception the claim
overlooks is the synchronous spawn-throw path, whose result takes the
raw error message as stderr without the bound. -/
theorem startedOutputBounded (events : List ProcEvent) (result : ProcessResult)
    (h : runCommand (.started events) = some result) :
    result.stdout.length ≤ MAX_PROCESS_OUTPUT_CHARS ∧
    result.stderr.length ≤ MAX_PROCESS_OUTPUT_CHARS :=
  processEvents_bounded events "" "" false result (by decide) (by decide) h

/-- C8 witness: the amended theorem applied to a concrete script. -/
theorem startedOutputBoundedWitness :
    smallCloseResult.stdout.length ≤ MAX_PROCESS_OUTPUT_CHARS ∧
    smallCloseResult.stderr.length ≤ MAX_PROCESS_OUTPUT_CHARS :=
  startedOutputBounded [.stdoutData "hi", .closeEvent (some 0)] smallCloseResult
    (by decide)

/-! ### Step equations for the runner's candidate loop -/

/-- Loop step: a non-base candidate whose probe fails is skipped
(extension.ts:294-298). -/
theorem runCliFixLoop_skip_eq (baseId prompt : String) (probe : CommandSpec → Bool)
    (exec : CommandSpec → ProcessResult) (route : CliRoute) (rest : List CliRoute)
    (st : FixState) (failures : List String) (sawOnly : Bool)
    (hbase : (route.id == baseId) = false) (hpr : probe route.probe = false) :
    runCliFixLoop baseId prompt probe exec (route :: rest) st failures sawOnly =
      withPreEvents [RunEvent.probed route.id false]
        (runCliFixLoop baseId prompt probe exec rest st failures sawOnly) := by
  simp [runCliFixLoop, hbase, hpr]

/-- Loop step: an executed candidate whose output is a sandbox notice
records a failure, clears `sawInvocationFailureOnly` and continues
(extension.ts:306-312). -/
theorem runCliFixLoop_sandbox_eq (baseId prompt : String) (probe : CommandSpec → Bool)
    (exec : CommandSpec → ProcessResult) (route : CliRoute) (rest : List CliRoute)
    (st : FixState) (failures : List String) (sawOnly : Bool)
    (hgate : (route.id == baseId) = true ∨ probe route.probe = true)
    (hsb : isReadOnlySandboxNotice (exec (route.buildRun prompt)) = true) :
    runCliFixLoop baseId prompt probe exec (route :: rest) st failures sawOnly =
      withPreEvents (gatePre baseId route ++ [RunEvent.ran route.id])
        (runCliFixLoop baseId prompt probe exec rest st
          (failures ++ [sandboxFailureMessage route]) false) := by
  cases hbase : (route.id == baseId) with
  | true => simp [runCliFixLoop, gatePre, hbase, hsb]
  | false =>
    have hpr : probe route.probe = true := by
      rcases hgate with h | h
      · rw [hbase] at h; cases h
      · exact h
    simp [runCliFixLoop, gatePre, hbase, hpr, hsb]

/-- Loop step: an executed candidate that succeeds caches itself and
terminates the loop (extension.ts:314-327). -/
theorem runCliFixLoop_success_eq (baseId prompt : String) (probe : CommandSpec → Bool)
    (exec : CommandSpec → ProcessResult) (route : CliRoute) (rest : List CliRoute)
    (st : FixState) (failures : List String) (sawOnly : Bool)
    (hgate : (route.id == baseId) = true ∨ probe route.probe = true)
    (hsb : isReadOnlySandboxNotice (exec (route.buildRun prompt)) = false)
    (hsucc : isProcessSuccess (exec (route.buildRun prompt)) = true) :
    runCliFixLoop baseId prompt probe exec (route :: rest) st failures sawOnly =
      { outcome := some route, state := setCachedCliRoute st (some route),
        events := gatePre baseId route ++ [RunEvent.ran route.id],
        failures := failures } := by
  cases hbase : (route.id == baseId) with
  | true => simp [runCliFixLoop, gatePre, hbase, hsb, hsucc]
  | false =>
    have hpr : probe route.probe = true := by
      rcases hgate with h | h
      · rw [hbase] at h; cases h
      · exact h
    simp [runCliFixLoop, gatePre, hbase, hpr, hsb, hsucc]

/-- Loop step: an executed candidate that fails as an invocation failure
records the failure and continues (extension.ts:329-333). -/
theorem runCliFixLoop_invfail_eq (baseId prompt : String) (probe : CommandSpec → Bool)
    (exec : CommandSpec → ProcessResult) (route : CliRoute) (rest : List CliRoute)
    (st : FixState) (failures : List String) (sawOnly : Bool)
    (hgate : (route.id == baseId) = true ∨ probe route.probe = true)
    (hsb : isReadOnlySandboxNotice (exec (route.buildRun prompt)) = false)
    (hsucc : isProcessSuccess (exec (route.buildRun prompt)) = false)
    (hinv : isInvocationFailure (exec (route.buildRun prompt)) = true) :
    runCliFixLoop baseId prompt probe exec (route :: rest) st failures sawOnly =
      withPreEvents (gatePre baseId route ++ [RunEvent.ran route.id])
        (runCliFixLoop baseId prompt probe exec rest st
          (failures ++ [runFailureMessage route (exec (route.buildRun prompt))]) sawOnly) := by
  cases hbase : (route.id == baseId) with
  | true => simp [runCliFixLoop, gatePre, hbase, hsb, hsucc, hinv]
  | false =>
    have hpr : probe route.probe = true := by
      rcases hgate with h | h
      · rw [hbase] at h; cases h
      · exact h
    simp [runCliFixLoop, gatePre, hbase, hpr, hsb, hsucc, hinv]

/-- Loop step: an executed candidate that fails for a non-invocation
reason records the failure and breaks out of the loop without touching
the cached verdict (extension.ts:330-333, the `sawInvocationFailureOnly`
flag is false after the break so extension.ts:336-338 does not fire). -/
theorem runCliFixLoop_hard_eq (baseId prompt : String) (probe : CommandSpec → Bool)
    (exec : CommandSpec → ProcessResult) (route : CliRoute) (rest : List CliRoute)
    (st : FixState) (failures : List String) (sawOnly : Bool)
    (hgate : (route.id == baseId) = true ∨ probe route.probe = true)
    (hsb : isReadOnlySandboxNotice (exec (route.buildRun prompt)) = false)
    (hsucc : isProcessSuccess (exec (route.buildRun prompt)) = false)
    (hinv : isInvocationFailure (exec (route.buildRun prompt)) = false) :
    runCliFixLoop baseId prompt probe exec (route :: rest) st failures sawOnly =
      { outcome := none, state := st,
        events := gatePre baseId route ++ [RunEvent.ran route.id],
        failures := failures ++ [runFailureMessage route (exec (route.buildRun prompt))] } := by
  cases hbase : (route.id == baseId) with
  | true => simp [runCliFixLoop, gatePre, hbase, hsb, hsucc, hinv]
  | false =>
    have hpr : probe route.probe = true := by
      rcases hgate with h | h
      · rw [hbase] at h; cases h
      · exact h
    simp [runCliFixLoop, gatePre, hbase, hpr, hsb, hsucc, hinv]

/-- Once `sawInvocationFailureOnly` is false, the rest of the loop
either leaves the per-kind state untouched or writes a known-good route
that actually succeeded: it never writes the `null` verdict. -/
theorem runCliFixLoop_state_after_soft (baseId prompt : String)
    (probe : CommandSpec → Bool) (exec : CommandSpec → ProcessResult) :
    ∀ (routes : List CliRoute) (st : FixState) (failures : List String),
      (runCliFixLoop baseId prompt probe exec routes st failures false).state = st ∨
      ∃ w : CliRoute,
        (runCliFixLoop baseId prompt probe exec routes st failures false).state =
          setCachedCliRoute st (some w) ∧
        isProcessSuccess (exec (w.buildRun prompt)) = true := by
  intro routes
  induction routes with
  | nil => intro st failures; exact Or.inl rfl
  | cons route rest ih =>
    intro st failures
    by_cases hgate : (route.id == baseId) = true ∨ probe route.probe = true
    · cases hsb : isReadOnlySandboxNotice (exec (route.buildRun prompt)) with
      | true =>
        rw [runCliFixLoop_sandbox_eq baseId prompt probe exec route rest st failures false
          hgate hsb]
        exact ih st _
      | false =>
        cases hsucc : isProcessSuccess (exec (route.buildRun prompt)) with
        | true =>
          rw [runCliFixLoop_success_eq baseId prompt probe exec route rest st failures false
            hgate hsb hsucc]
          exact Or.inr ⟨route, rfl, hsucc⟩
        | false =>
          cases hinv : isInvocationFailure (exec (route.buildRun prompt)) with
          | true =>
            rw [runCliFixLoop_invfail_eq baseId prompt probe exec route rest st failures false
              hgate hsb hsucc hinv]
            exact ih st _
          | false =>
            rw [runCliFixLoop_hard_eq baseId prompt probe exec route rest st failures false
              hgate hsb hsucc hinv]
            exact Or.inl rfl
    · simp only [not_or, Bool.not_eq_true] at hgate
      rw [runCliFixLoop_skip_eq baseId prompt probe exec route rest st failures false
        hgate.1 hgate.2]
      exact ih st failures

/-- C5: a run whose output matches a read-only-sandbox phrase records
one descriptive failure and hands the loop on to the remaining
candidates with the invalidation flag cleared — it never ends the loop
early — and from that point the per-kind cached/persisted verdict is
either left exactly as it was or overwritten only by a candidate whose
run actually succeeded (never the `null` verdict, never a non-successful
route). -/
theorem sandboxNoticeSoftFailure (baseId prompt : String) (probe : CommandSpec → Bool)
    (exec : CommandSpec → ProcessResult) (route : CliRoute) (rest : List CliRoute)
    (st : FixState) (failures : List String) (sawOnly : Bool)
    (hgate : (route.id == baseId) = true ∨ probe route.probe = true)
    (hsb : isReadOnlySandboxNotice (exec (route.buildRun prompt)) = true) :
    runCliFixLoop baseId prompt probe exec (route :: rest) st failures sawOnly =
      withPreEvents (gatePre baseId route ++ [RunEvent.ran route.id])
        (runCliFixLoop baseId prompt probe exec rest st
          (failures ++ [sandboxFailureMessage route]) false) ∧
    ((runCliFixLoop baseId prompt probe exec (route :: rest) st failures sawOnly).state = st ∨
      ∃ w : CliRoute,
        (runCliFixLoop baseId prompt probe exec (route :: rest) st failures sawOnly).state =
          setCachedCliRoute st (some w) ∧
        isProcessSuccess (exec (w.buildRun prompt)) = true) := by
  have heq := runCliFixLoop_sandbox_eq baseId prompt probe exec route rest st failures sawOnly
    hgate hsb
  refine ⟨heq, ?_⟩
  rw [heq]
  exact runCliFixLoop_state_after_soft baseId prompt probe exec rest st
    (failures ++ [sandboxFailureMessage route])

/-- C5 witness: the theorem applied to a concrete sandbox-notice run of
the base route with no further candidates. -/
theorem sandboxNoticeSoftFailureWitness :
    runCliFixLoop claudeBaseRoute.id "p" probeNever execSandbox [claudeBaseRoute]
        stateUnresolved [] true =
      withPreEvents (gatePre claudeBaseRoute.id claudeBaseRoute ++
          [RunEvent.ran claudeBaseRoute.id])
        (runCliFixLoop claudeBaseRoute.id "p" probeNever execSandbox []
          stateUnresolved ([] ++ [sandboxFailureMessage claudeBaseRoute]) false) ∧
    ((runCliFixLoop claudeBaseRoute.id "p" probeNever execSandbox [claudeBaseRoute]
        stateUnresolved [] true).state = stateUnresolved ∨
      ∃ w : CliRoute,
        (runCliFixLoop claudeBaseRoute.id "p" probeNever execSandbox [claudeBaseRoute]
            stateUnresolved [] true).state =
          setCachedCliRoute stateUnresolved (some w) ∧
        isProcessSuccess (execSandbox (w.buildRun "p")) = true) :=
  sandboxNoticeSoftFailure claudeBaseRoute.id "p" probeNever execSandbox claudeBaseRoute []
    stateUnresolved [] true (Or.inl (by decide)) (by decide)

/-- `gatePre` never contains an execution event. -/
theorem gatePre_ran_not_mem (baseId : String) (route : CliRoute) (id : String) :
    RunEvent.ran id ∉ gatePre baseId route := by
  unfold gatePre
  split <;> simp

/-- A probe event in `gatePre` is the successful probe of a non-base
candidate. -/
theorem gatePre_probed_mem (baseId : String) (route : CliRoute) (id : String) (ok : Bool)
    (h : RunEvent.probed id ok ∈ gatePre baseId route) :
    id = route.id ∧ ok = true ∧ (route.id == baseId) = false := by
  unfold gatePre at h
  split at h
  · simp at h
  · next hbase =>
    simp only [List.mem_singleton, RunEvent.probed.injEq] at h
    exact ⟨h.1, h.2, by simpa using hbase⟩

@[simp]
theorem withPreEvents_events (pre : List RunEvent) (res : RunnerResult) :
    (withPreEvents pre res).events = pre ++ res.events := rfl

@[simp]
theorem withPreEvents_state (pre : List RunEvent) (res : RunnerResult) :
    (withPreEvents pre res).state = res.state := rfl

@[simp]
theorem withPreEvents_outcome (pre : List RunEvent) (res : RunnerResult) :
    (withPreEvents pre res).outcome = res.outcome := rfl

/-- Decompose membership in the trace prefix an executed candidate
contributes. -/
theorem mem_gate_ran (baseId : String) (route : CliRoute) (e : RunEvent)
    (h : e ∈ gatePre baseId route ++ [RunEvent.ran route.id]) :
    e = RunEvent.ran route.id ∨
    (e = RunEvent.probed route.id true ∧ (route.id == baseId) = false) := by
  unfold gatePre at h
  split at h
  · simp at h
    exact Or.inl h
  · next hbase =>
    simp at h
    rcases h with h | h
    · exact Or.inr ⟨h, by simpa using hbase⟩
    · exact Or.inl h

/-- Every execution event in the loop's trace belongs to a listed
candidate that was either the base route or probed successfully. -/
theorem runCliFixLoop_ran_mem (baseId prompt : String) (probe : CommandSpec → Bool)
    (exec : CommandSpec → ProcessResult) :
    ∀ (routes : List CliRoute) (st : FixState) (failures : List String) (sawOnly : Bool)
      (id : String),
      RunEvent.ran id ∈ (runCliFixLoop baseId prompt probe exec routes st failures sawOnly).events →
      ∃ r : CliRoute, r ∈ routes ∧ r.id = id ∧
        ((r.id == baseId) = true ∨ probe r.probe = true) := by
  intro routes
  induction routes with
  | nil => intro st failures sawOnly id h; simp [runCliFixLoop] at h
  | cons route rest ih =>
    intro st failures sawOnly id h
    have fromGate : RunEvent.ran id ∈ gatePre baseId route ++ [RunEvent.ran route.id] →
        ((route.id == baseId) = true ∨ probe route.probe = true) →
        ∃ r : CliRoute, r ∈ route :: rest ∧ r.id = id ∧
          ((r.id == baseId) = true ∨ probe r.probe = true) := by
      intro hg hgate
      rcases mem_gate_ran baseId route _ hg with hg | ⟨hg, _⟩
      · have hid : id = route.id := by simpa using hg
        exact ⟨route, List.mem_cons_self route rest, hid.symm, hgate⟩
      · simp at hg
    by_cases hgate : (route.id == baseId) = true ∨ probe route.probe = true
    · cases hsb : isReadOnlySandboxNotice (exec (route.buildRun prompt)) with
      | true =>
        rw [runCliFixLoop_sandbox_eq baseId prompt probe exec route rest st failures sawOnly
          hgate hsb, withPreEvents_events] at h
        rcases List.mem_append.mp h with h | h
        · exact fromGate h hgate
        · obtain ⟨r, hr, hid, hg⟩ := ih _ _ _ _ h
          exact ⟨r, List.mem_cons_of_mem route hr, hid, hg⟩
      | false =>
        cases hsucc : isProcessSuccess (exec (route.buildRun prompt)) with
        | true =>
          rw [runCliFixLoop_success_eq baseId prompt probe exec route rest st failures sawOnly
            hgate hsb hsucc] at h
          exact fromGate h hgate
        | false =>
          cases hinv : isInvocationFailure (exec (route.buildRun prompt)) with
          | true =>
            rw [runCliFixLoop_invfail_eq baseId prompt probe exec route rest st failures sawOnly
              hgate hsb hsucc hinv, withPreEvents_events] at h
            rcases List.mem_append.mp h with h | h
            · exact fromGate h hgate
            · obtain ⟨r, hr, hid, hg⟩ := ih _ _ _ _ h
              exact ⟨r, List.mem_cons_of_mem route hr, hid, hg⟩
          | false =>
            rw [runCliFixLoop_hard_eq baseId prompt probe exec route rest st failures sawOnly
              hgate hsb hsucc hinv] at h
            exact fromGate h hgate
    · simp only [not_or, Bool.not_eq_true] at hgate
      rw [runCliFixLoop_skip_eq baseId prompt probe exec route rest st failures sawOnly
        hgate.1 hgate.2, withPreEvents_events, List.singleton_append] at h
      rcases List.mem_cons.mp h with h | h
      · simp at h
      · obtain ⟨r, hr, hid, hg⟩ := ih _ _ _ _ h
        exact ⟨r, List.mem_cons_of_mem route hr, hid, hg⟩

/-- Every probe event in the loop's trace is the probe of a listed
non-base candidate and records that probe's verdict. -/
theorem runCliFixLoop_probed_mem (baseId prompt : String) (probe : CommandSpec → Bool)
    (exec : CommandSpec → ProcessResult) :
    ∀ (routes : List CliRoute) (st : FixState) (failures : List String) (sawOnly : Bool)
      (id : String) (ok : Bool),
      RunEvent.probed id ok ∈
          (runCliFixLoop baseId prompt probe exec routes st failures sawOnly).events →
      ∃ r : CliRoute, r ∈ routes ∧ r.id = id ∧ (r.id == baseId) = false ∧
        probe r.probe = ok := by
  intro routes
  induction routes with
  | nil => intro st failures sawOnly id ok h; simp [runCliFixLoop] at h
  | cons route rest ih =>
    intro st failures sawOnly id ok h
    have fromGate : RunEvent.probed id ok ∈ gatePre baseId route ++ [RunEvent.ran route.id] →
        ((route.id == baseId) = true ∨ probe route.probe = true) →
        ∃ r : CliRoute, r ∈ route :: rest ∧ r.id = id ∧ (r.id == baseId) = false ∧
          probe r.probe = ok := by
      intro hg hgate
      rcases mem_gate_ran baseId route _ hg with hg | ⟨hg, hbase⟩
      · simp at hg
      · have hids : id = route.id ∧ ok = true := by simpa using hg
        have hpr : probe route.probe = true := by
          rcases hgate with hgt | hgt
          · rw [hbase] at hgt; cases hgt
          · exact hgt
        exact ⟨route, List.mem_cons_self route rest, hids.1.symm, hbase,
          hids.2.symm ▸ hpr⟩
    by_cases hgate : (route.id == baseId) = true ∨ probe route.probe = true
    · cases hsb : isReadOnlySandboxNotice (exec (route.buildRun prompt)) with
      | true =>
        rw [runCliFixLoop_sandbox_eq baseId prompt probe exec route rest st failures sawOnly
          hgate hsb, withPreEvents_events] at h
        rcases List.mem_append.mp h with h | h
        · exact fromGate h hgate
        · obtain ⟨r, hr, hid, hb, hp⟩ := ih _ _ _ _ _ h
          exact ⟨r, List.mem_cons_of_mem route hr, hid, hb, hp⟩
      | false =>
        cases hsucc : isProcessSuccess (exec (route.buildRun prompt)) with
        | true =>
          rw [runCliFixLoop_success_eq baseId prompt probe exec route rest st failures sawOnly
            hgate hsb hsucc] at h
          exact fromGate h hgate
        | false =>
          cases hinv : isInvocationFailure (exec (route.buildRun prompt)) with
          | true =>
            rw [runCliFixLoop_invfail_eq baseId prompt probe exec route rest st failures sawOnly
              hgate hsb hsucc hinv, withPreEvents_events] at h
            rcases List.mem_append.mp h with h | h
            · exact fromGate h hgate
            · obtain ⟨r, hr, hid, hb, hp⟩ := ih _ _ _ _ _ h
              exact ⟨r, List.mem_cons_of_mem route hr, hid, hb, hp⟩
          | false =>
            rw [runCliFixLoop_hard_eq baseId prompt probe exec route rest st failures sawOnly
              hgate hsb hsucc hinv] at h
            exact fromGate h hgate
    · simp only [not_or, Bool.not_eq_true] at hgate
      rw [runCliFixLoop_skip_eq baseId prompt probe exec route rest st failures sawOnly
        hgate.1 hgate.2, withPreEvents_events, List.singleton_append] at h
      rcases List.mem_cons.mp h with h | h
      · have hids : id = route.id ∧ ok = false := by simpa using h
        exact ⟨route, List.mem_cons_self route rest, hids.1.symm, hgate.1,
          hids.2.symm ▸ hgate.2⟩
      · obtain ⟨r, hr, hid, hb, hp⟩ := ih _ _ _ _ _ h
        exact ⟨r, List.mem_cons_of_mem route hr, hid, hb, hp⟩

/-- C6: with a resolved base route, the runner's candidate order is the
base route first and then the remaining Catalog candidates in Catalog
order; the first thing the loop does is execute the base route with no
probe; no probe event ever names the base route; and a non-base
candidate whose probe fails is never executed. -/
theorem runnerBaseFirstNoReprobe (candidates : List CliRoute) (base : CliRoute)
    (prompt : String) (probe : CommandSpec → Bool) (exec : CommandSpec → ProcessResult)
    (st : FixState)
    (hfind : candidates.find? (fun r => r.id == base.id) = some base)
    (hnodup : (candidates.map CliRoute.id).Nodup) :
    orderRoutesWithPreferred candidates (some base.id) =
      base :: candidates.filter (fun r => !(r.id == base.id)) ∧
    (runCliFixLoop base.id prompt probe exec
        (orderRoutesWithPreferred candidates (some base.id)) st [] true).events.head? =
      some (RunEvent.ran base.id) ∧
    (∀ (id : String) (ok : Bool),
      RunEvent.probed id ok ∈ (runCliFixLoop base.id prompt probe exec
          (orderRoutesWithPreferred candidates (some base.id)) st [] true).events →
      ¬ id = base.id) ∧
    (∀ r : CliRoute, r ∈ candidates → ¬ r.id = base.id → probe r.probe = false →
      ¬ RunEvent.ran r.id ∈ (runCliFixLoop base.id prompt probe exec
          (orderRoutesWithPreferred candidates (some base.id)) st [] true).events) := by
  have horder : orderRoutesWithPreferred candidates (some base.id) =
      base :: candidates.filter (fun r => !(r.id == base.id)) := by
    simp [orderRoutesWithPreferred, hfind]
  have hbasemem : base ∈ candidates := List.mem_of_find?_eq_some hfind
  have hsubset : ∀ r : CliRoute,
      r ∈ orderRoutesWithPreferred candidates (some base.id) → r ∈ candidates := by
    intro r hr
    rw [horder] at hr
    rcases List.mem_cons.mp hr with hr | hr
    · exact hr ▸ hbasemem
    · exact (List.mem_filter.mp hr).1
  have hb : (base.id == base.id) = true := by simp
  refine ⟨horder, ?_, ?_, ?_⟩
  · rw [horder]
    cases hsb : isReadOnlySandboxNotice (exec (base.buildRun prompt)) with
    | true =>
      rw [runCliFixLoop_sandbox_eq base.id prompt probe exec base _ st [] true
        (Or.inl hb) hsb, withPreEvents_events]
      simp [gatePre, hb]
    | false =>
      cases hsucc : isProcessSuccess (exec (base.buildRun prompt)) with
      | true =>
        rw [runCliFixLoop_success_eq base.id prompt probe exec base _ st [] true
          (Or.inl hb) hsb hsucc]
        simp [gatePre, hb]
      | false =>
        cases hinv : isInvocationFailure (exec (base.buildRun prompt)) with
        | true =>
          rw [runCliFixLoop_invfail_eq base.id prompt probe exec base _ st [] true
            (Or.inl hb) hsb hsucc hinv, withPreEvents_events]
          simp [gatePre, hb]
        | false =>
          rw [runCliFixLoop_hard_eq base.id prompt probe exec base _ st [] true
            (Or.inl hb) hsb hsucc hinv]
          simp [gatePre, hb]
  · intro id ok hmem hcontra
    obtain ⟨r, _, hid, hbf, _⟩ :=
      runCliFixLoop_probed_mem base.id prompt probe exec _ _ _ _ _ _ hmem
    rw [hid, hcontra] at hbf
    rw [hb] at hbf
    cases hbf
  · intro r hrc hrneq hpr hmem
    obtain ⟨r2, hr2, hid2, hg2⟩ :=
      runCliFixLoop_ran_mem base.id prompt probe exec _ _ _ _ _ hmem
    have hr2c : r2 ∈ candidates := hsubset r2 hr2
    have hr2r : r2 = r := List.inj_on_of_nodup_map hnodup hr2c hrc hid2
    rcases hg2 with hg2 | hg2
    · rw [hr2r] at hg2
      exact hrneq (by simpa using hg2)
    · rw [hr2r, hpr] at hg2
      cases hg2

/-- C6 witness: the theorem applied to the claude catalog with its first
route as base, a probe oracle that rejects everything and runs that time
out. -/
theorem runnerBaseFirstNoReprobeWitness :
    orderRoutesWithPreferred getClaudeCliRoutes (some claudeBaseRoute.id) =
      claudeBaseRoute ::
        getClaudeCliRoutes.filter (fun r => !(r.id == claudeBaseRoute.id)) ∧
    (runCliFixLoop claudeBaseRoute.id "p" probeNever execTimesOut
        (orderRoutesWithPreferred getClaudeCliRoutes (some claudeBaseRoute.id))
        stateUnresolved [] true).events.head? = some (RunEvent.ran claudeBaseRoute.id) ∧
    (∀ (id : String) (ok : Bool),
      RunEvent.probed id ok ∈ (runCliFixLoop claudeBaseRoute.id "p" probeNever execTimesOut
          (orderRoutesWithPreferred getClaudeCliRoutes (some claudeBaseRoute.id))
          stateUnresolved [] true).events →
      ¬ id = claudeBaseRoute.id) ∧
    (∀ r : CliRoute, r ∈ getClaudeCliRoutes → ¬ r.id = claudeBaseRoute.id →
      probeNever r.probe = false →
      ¬ RunEvent.ran r.id ∈ (runCliFixLoop claudeBaseRoute.id "p" probeNever execTimesOut
          (orderRoutesWithPreferred getClaudeCliRoutes (some claudeBaseRoute.id))
          stateUnresolved [] true).events) :=
  runnerBaseFirstNoReprobe getClaudeCliRoutes claudeBaseRoute "p" probeNever execTimesOut
    stateUnresolved rfl (by decide)

/-- When every executed run classifies as a pure invocation failure, the
candidate loop runs to exhaustion and ends by writing the `null` verdict
into the per-kind state (extension.ts:336-338 via `setCachedCliRoute`). -/
theorem runCliFixLoop_allInvFail (baseId prompt : String) (probe : CommandSpec → Bool)
    (exec : CommandSpec → ProcessResult)
    (hexec : ∀ c : CommandSpec, isReadOnlySandboxNotice (exec c) = false ∧
      isProcessSuccess (exec c) = false ∧ isInvocationFailure (exec c) = true) :
    ∀ (routes : List CliRoute) (st : FixState) (failures : List String),
      (runCliFixLoop baseId prompt probe exec routes st failures true).state =
        setCachedCliRoute st none ∧
      (runCliFixLoop baseId prompt probe exec routes st failures true).outcome = none := by
  intro routes
  induction routes with
  | nil => intro st failures; exact ⟨rfl, rfl⟩
  | cons route rest ih =>
    intro st failures
    by_cases hgate : (route.id == baseId) = true ∨ probe route.probe = true
    · obtain ⟨hsb, hsucc, hinv⟩ := hexec (route.buildRun prompt)
      rw [runCliFixLoop_invfail_eq baseId prompt probe exec route rest st failures true
        hgate hsb hsucc hinv]
      exact ⟨(withPreEvents_state _ _).trans (ih st _).1,
        (withPreEvents_outcome _ _).trans (ih st _).2⟩
    · simp only [not_or, Bool.not_eq_true] at hgate
      rw [runCliFixLoop_skip_eq baseId prompt probe exec route rest st failures true
        hgate.1 hgate.2]
      exact ⟨(withPreEvents_state _ _).trans (ih st failures).1,
        (withPreEvents_outcome _ _).trans (ih st failures).2⟩

/-- C1 amended: when every attempted run of a Fixer Runner invocation is
an invocation failure, the invocation deletes the persisted route id but
writes the in-memory cache entry with the `null` (known-bad) verdict —
not back to unresolved — so the next resolve in the same process returns
`null` immediately without running discovery; only a fresh process
(whose in-memory cache starts empty) rediscovers from scratch. -/
theorem allInvFailLeavesKnownBadNotUnresolved (fixerId : CliFixerId)
    (settings : CliSettings) (st : FixState) (prompt : String)
    (probe : CommandSpec → Bool) (exec : CommandSpec → ProcessResult) (base : CliRoute)
    (hcache : st.cache = some (some base))
    (havail : isRouteAvailable fixerId base.id settings = true)
    (hexec : ∀ c : CommandSpec, isReadOnlySandboxNotice (exec c) = false ∧
      isProcessSuccess (exec c) = false ∧ isInvocationFailure (exec c) = true) :
    (runCliFix fixerId settings st prompt probe exec).state =
      setCachedCliRoute st none ∧
    isKnownBadCache (runCliFix fixerId settings st prompt probe exec).state.cache = true ∧
    isUnresolvedCache (runCliFix fixerId settings st prompt probe exec).state.cache = false ∧
    (runCliFix fixerId settings st prompt probe exec).state.persisted = none ∧
    (∀ probe2 : CommandSpec → Bool,
      (getCliRoute fixerId settings
          (runCliFix fixerId settings st prompt probe exec).state probe2).route = none ∧
      (getCliRoute fixerId settings
          (runCliFix fixerId settings st prompt probe exec).state probe2).ranDiscovery =
        false) := by
  have hres : getCliRoute fixerId settings st probe = ⟨some base, st, false⟩ := by
    simp [getCliRoute, hcache, havail]
  have hrun : runCliFix fixerId settings st prompt probe exec =
      runCliFixLoop base.id prompt probe exec
        (orderRoutesWithPreferred (getCliRouteCandidates fixerId settings) (some base.id))
        st [] true := by
    simp [runCliFix, hres]
  have hloop := runCliFixLoop_allInvFail base.id prompt probe exec hexec
    (orderRoutesWithPreferred (getCliRouteCandidates fixerId settings) (some base.id)) st []
  rw [hrun]
  refine ⟨hloop.1, ?_, ?_, ?_, ?_⟩
  · rw [hloop.1]; rfl
  · rw [hloop.1]; rfl
  · rw [hloop.1]; rfl
  · intro probe2
    rw [hloop.1]
    exact ⟨rfl, rfl⟩

theorem enoentNotSandbox : isReadOnlySandboxNotice enoentResult = false := by decide

theorem enoentNotSuccess : isProcessSuccess enoentResult = false := by decide

theorem enoentIsInvocationFailure : isInvocationFailure enoentResult = true := by decide

/-- C1 counterexample: a concrete claude invocation whose single
attempted run is an invocation failure (`ENOENT`) ends with the
in-memory verdict equal to known-bad (`null`), not cleared to
unresolved, and the next resolve returns no route and runs no discovery
even though its probe oracle would accept every candidate — the claim's
"cleared back to unresolved … runs discovery from scratch rather than
returning null immediately" is false of the code. -/
theorem allInvFailCounterexample :
    isInvocationFailure enoentResult = true ∧
    ((runCliFix .claudeCli ⟨true⟩ stateWithClaudeBase "p" probeNever execEnoent).events.filter
        isRanEvent).length = 1 ∧
    isKnownBadCache (runCliFix .claudeCli ⟨true⟩ stateWithClaudeBase "p" probeNever
        execEnoent).state.cache = true ∧
    isUnresolvedCache (runCliFix .claudeCli ⟨true⟩ stateWithClaudeBase "p" probeNever
        execEnoent).state.cache = false ∧
    (getCliRoute .claudeCli ⟨true⟩ (runCliFix .claudeCli ⟨true⟩ stateWithClaudeBase "p"
        probeNever execEnoent).state (fun _ => true)).route.isNone = true ∧
    (getCliRoute .claudeCli ⟨true⟩ (runCliFix .claudeCli ⟨true⟩ stateWithClaudeBase "p"
        probeNever execEnoent).state (fun _ => true)).ranDiscovery = false := by
  exact ⟨by decide, by decide, by decide, by decide, by decide, by decide⟩

/-- C1 witness: the amended theorem applied to the same concrete
invocation. -/
theorem allInvFailLeavesKnownBadWitness :
    (runCliFix .claudeCli ⟨true⟩ stateWithClaudeBase "p" probeNever execEnoent).state =
      setCachedCliRoute stateWithClaudeBase none ∧
    isKnownBadCache (runCliFix .claudeCli ⟨true⟩ stateWithClaudeBase "p" probeNever
        execEnoent).state.cache = true ∧
    isUnresolvedCache (runCliFix .claudeCli ⟨true⟩ stateWithClaudeBase "p" probeNever
        execEnoent).state.cache = false ∧
    (runCliFix .claudeCli ⟨true⟩ stateWithClaudeBase "p" probeNever
        execEnoent).state.persisted = none ∧
    (∀ probe2 : CommandSpec → Bool,
      (getCliRoute .claudeCli ⟨true⟩ (runCliFix .claudeCli ⟨true⟩ stateWithClaudeBase "p"
          probeNever execEnoent).state probe2).route = none ∧
      (getCliRoute .claudeCli ⟨true⟩ (runCliFix .claudeCli ⟨true⟩ stateWithClaudeBase "p"
          probeNever execEnoent).state probe2).ranDiscovery = false) :=
  allInvFailLeavesKnownBadNotUnresolved .claudeCli ⟨true⟩ stateWithClaudeBase "p"
    probeNever execEnoent claudeBaseRoute rfl (by decide)
    (fun _ => ⟨enoentNotSandbox, enoentNotSuccess, enoentIsInvocationFailure⟩)

/-- C10: the host-command availability check caches only positive
answers. Once a call has answered `true`, a later call for the same name
answers `true` from the cache without querying the host command list —
even if the command has meanwhile disappeared from it. A `false` answer
leaves the cache unchanged and was itself obtained by querying the host
list, and a later call re-queries, so a command that has meanwhile
appeared is then detected. -/
theorem commandAvailabilityCachesOnlyPositives :
    ∀ (cache hostCommands hostCommands2 : List String) (command : String),
      ((isCommandAvailable cache hostCommands command).1 = true →
        isCommandAvailable (isCommandAvailable cache hostCommands command).2.1
            hostCommands2 command =
          (true, (isCommandAvailable cache hostCommands command).2.1, false)) ∧
      ((isCommandAvailable cache hostCommands command).1 = false →
        (isCommandAvailable cache hostCommands command).2.1 = cache ∧
        (isCommandAvailable cache hostCommands command).2.2 = true ∧
        (isCommandAvailable (isCommandAvailable cache hostCommands command).2.1
            hostCommands2 command).1 = hostCommands2.contains command) := by
  intro cache hostCommands hostCommands2 command
  by_cases hc : command ∈ cache
  · constructor
    · intro _
      simp [isCommandAvailable, hc]
    · intro hfalse
      simp [isCommandAvailable, hc] at hfalse
  · by_cases ha : command ∈ hostCommands
    · constructor
      · intro _
        simp [isCommandAvailable, hc, ha]
      · intro hfalse
        simp [isCommandAvailable, hc, ha] at hfalse
    · constructor
      · intro htrue
        simp [isCommandAvailable, hc, ha] at htrue
      · intro _
        refine ⟨by simp [isCommandAvailable, hc, ha], by simp [isCommandAvailable, hc, ha], ?_⟩
        by_cases h2 : command ∈ hostCommands2
        · simp [isCommandAvailable, hc, ha, h2]
        · simp [isCommandAvailable, hc, ha, h2]

/-- C8 counterexample: a spawn throw whose error message has 12001
characters produces a result whose stderr exceeds the
12000-character bound, because the spawn-throw path stores the raw
message. -/
theorem spawnThrowStderrUnbounded :
    (runCommand (.throws none longSpawnMessage)).map (fun r => r.stderr.length) =
      some 12001 ∧ ¬ (12001 ≤ MAX_PROCESS_OUTPUT_CHARS) := by
  constructor
  · show some longSpawnMessage.length = some 12001
    have : longSpawnMessage.length = 12001 := by
      show (List.replicate 12001 'x').length = 12001
      exact List.length_replicate 12001 'x'
    rw [this]
  · decide
